import Mathlib

/-!
# Verification of the Mitosis agent runtime core

Shallow embedding, in Lean 4, of the parts of the `Arx88/Mitosis` backend
that the specification's claims are about:

* `backend/agentpress/xml_tool_parser.py` — the XML tool-invocation parser;
* `backend/agent/run.py` — the `run_agent` driver loop (billing gate,
  chunk-stream consumption, termination decision, ephemeral turn message);
* `backend/sandbox/local_docker_handler.py` — the lazily initialized
  process-wide Docker client and the container operations;
* `backend/sandbox/sandbox.py` — `delete_sandbox`.

External collaborators (the Python standard library's `xml.etree` and `json`,
the Docker SDK, the Supabase client, the LLM transport) are modelled as data:
their *outputs* are inputs of the embedded functions, mirroring how the
specification itself treats them as opaque interfaces.
-/

namespace Mitosis

/-! ## Part A — XML tool-invocation parser

Embeds `XMLToolParser.parse` from `backend/agentpress/xml_tool_parser.py`.

The Python code first wraps the input string in a `<dummy_root>` element and
hands it to `xml.etree.ElementTree.fromstring` (standard library, external to
this repository).  The embedding therefore starts from the element tree that
`ET.fromstring` returns: `parse` here receives the list of children of the
synthetic `dummy_root` element.  An `XMLElement` models exactly the fields the
parser reads: `tag`, the attribute mapping (`element.get` / `element.attrib`),
`text` (the character data before the first child, `None` when absent), and
the child elements in document order.  (`ET`'s `tail` field is never read by
the parser and is omitted.)
-/

structure XMLElement where
  tag : String
  attrib : List (String × String)
  text : Option String
  children : List XMLElement

/-- `ToolCall` dataclass from `backend/agentpress/tool.py` as instantiated by
the parser: `ToolCall(tool_name=..., tool_kwargs=...)`.  The kwargs dict is
modelled as an insertion-ordered association list (Python `dict` semantics). -/
structure ToolCall where
  tool_name : String
  tool_kwargs : List (String × String)
deriving DecidableEq

/-- Python `d[k] = v` on an insertion-ordered dict modelled as an association
list: overwrite in place when the key exists, append otherwise. -/
def dictInsert (d : List (String × String)) (k v : String) : List (String × String) :=
  if d.any (fun p => p.1 == k) then
    d.map (fun p => if p.1 == k then (k, v) else p)
  else
    d ++ [(k, v)]

/-- Python truthiness of an optional string (`None` and `""` are falsy). -/
def optTruthy : Option String → Bool
  | none => false
  | some s => !(s == "")

/-- Python `str.strip()`: drop whitespace from both ends.  Implemented over
the character list so that it evaluates by kernel reduction. -/
def pyStrip (s : String) : String :=
  ⟨(((s.data.dropWhile Char.isWhitespace).reverse).dropWhile Char.isWhitespace).reverse⟩

/-- Python `str.lower()`. -/
def pyLower (s : String) : String :=
  ⟨s.data.map Char.toLower⟩

/-- Python `pat in s` (substring containment). -/
def charsContains (hay pat : List Char) : Bool :=
  match hay with
  | [] => pat.isEmpty
  | c :: t => pat.isPrefixOf (c :: t) || charsContains t pat

/-- Python `pat in s` on strings. -/
def strContains (s pat : String) : Bool :=
  charsContains s.data pat.data

/-- `param_element.text.strip() if param_element.text else ""`
(xml_tool_parser.py lines 54 and 66): the parameter value is the stripped
leading text of the parameter element; a missing or empty text yields `""`. -/
def pyStripText : Option String → String
  | none => ""
  | some t => if t == "" then "" else pyStrip t

/-- Attribute lookup, `element.get(name)`. -/
def attrGet (attrib : List (String × String)) (name : String) : Option String :=
  (attrib.find? (fun p => p.1 == name)).map (fun p => p.2)

/-- Size measure used to justify termination of the container-flattening
worklist loop. -/
def elemsSize : List XMLElement → Nat
  | [] => 0
  | ⟨_, _, _, cs⟩ :: es => 1 + elemsSize cs + elemsSize es

theorem elemsSize_cons (e : XMLElement) (es : List XMLElement) :
    elemsSize (e :: es) = 1 + elemsSize e.children + elemsSize es := by
  rcases e with ⟨t, a, x, cs⟩
  simp [elemsSize]

theorem elemsSize_append (a b : List XMLElement) :
    elemsSize (a ++ b) = elemsSize a + elemsSize b := by
  induction a with
  | nil => simp [elemsSize]
  | cons e es ih =>
    rw [List.cons_append, elemsSize_cons, elemsSize_cons, ih]
    omega

/-- The container-flattening worklist of `XMLToolParser.parse`
(xml_tool_parser.py lines 31-42): pop the first element; a known container
(`function_calls`, `tools`, `dummy_root`) has its children pushed back onto
the *front* of the worklist, anything else is a candidate tool element. -/
def flattenToolElements : List XMLElement → List XMLElement
  | [] => []
  | e :: rest =>
    if pyLower e.tag == "function_calls" || pyLower e.tag == "tools"
        || pyLower e.tag == "dummy_root" then
      flattenToolElements (e.children ++ rest)
    else
      e :: flattenToolElements rest
termination_by l => elemsSize l
decreasing_by
  · rw [elemsSize_append, elemsSize_cons]; omega
  · rw [elemsSize_cons]; omega

/-- One candidate tool element (xml_tool_parser.py lines 44-71).

* `<invoke name="X">` format: the name comes from the `name` attribute; each
  child whose tag is `parameter` (case-insensitive) contributes its `name`
  attribute and stripped leading text, skipped when the `name` attribute is
  falsy.
* Simple format: the element tag is the tool name; the element's own
  attributes become parameters, then each child element contributes
  `(child tag, stripped leading text)`.

The call is appended only when the resolved tool name is truthy
(`if tool_name_val:`). -/
def parseToolElement (e : XMLElement) : Option ToolCall :=
  if pyLower e.tag == "invoke" then
    let name? := attrGet e.attrib "name"
    let kwargs := e.children.foldl
      (fun acc p =>
        if pyLower p.tag == "parameter" then
          match attrGet p.attrib "name" with
          | some pn => if pn == "" then acc else dictInsert acc pn (pyStripText p.text)
          | none => acc
        else acc) []
    match name? with
    | some n => if n == "" then none else some ⟨n, kwargs⟩
    | none => none
  else
    let kwargs₀ := e.attrib.foldl (fun acc p => dictInsert acc p.1 p.2) []
    let kwargs := e.children.foldl
      (fun acc p => dictInsert acc p.tag (pyStripText p.text)) kwargs₀
    if e.tag == "" then none else some ⟨e.tag, kwargs⟩

namespace XMLToolParser

/-- `XMLToolParser.parse` after the `ET.fromstring` step: `rootChildren` is
the child list of the synthetic `dummy_root` wrapper.  Flatten through the
recognized container tags, then convert each candidate element, in document
order, into a `ToolCall` (xml_tool_parser.py lines 28-73). -/
def parse (rootChildren : List XMLElement) : List ToolCall :=
  (flattenToolElements rootChildren).filterMap parseToolElement

end XMLToolParser

/-! ## Part B — the `run_agent` driver loop (`backend/agent/run.py`)

The driver's external collaborators are oracles:

* the Supabase tables behind `client.table('messages')` are, for the
  loop-level claims, summarized per iteration by the query results the loop
  reads (billing outcome, latest conversation-message kind);
* `thread_manager.run_thread` (whose implementation,
  `agentpress/thread_manager.py` + `agentpress/response_processor.py`, is not
  part of the sources) is an oracle returning either the error dict checked
  at run.py line 536 or the async chunk stream, modelled as a list of
  already-JSON-decoded chunks in arrival order.

A `Chunk` carries exactly the fields run.py reads after decoding:
`chunk['status']` (`statusField`), `chunk['message']`, the decoded content's
`status_type`, `function_name`, `xml_tag_name`, `result`, `error_message`,
`arguments`, the `str(content)` rendering (`contentStr`), and the decoded
metadata's `agent_should_terminate` flag.  An `assistantMalformed` chunk is
an assistant chunk whose content fails to decode as JSON
(`json.JSONDecodeError` branch); a `toolChunk` carries the parsing-details
tag name and decoded output. -/

inductive Chunk where
  | status (statusField : Option String) (message : Option String)
      (status_type : Option String) (function_name : Option String)
      (xml_tag_name : Option String) (result : Option String)
      (error_message : Option String) (arguments : String)
      (contentStr : String) (agent_should_terminate : Bool)
  | assistant (text : String)
  | assistantMalformed
  | toolChunk (xml_tag_name : Option String) (output : String) (is_error : Bool)
  | other
deriving DecidableEq

/-- Events yielded by `run_agent`.  In streaming mode run.py re-shapes chunks
into typed dicts; in non-streaming mode it yields the raw chunk
(`chunkOut`). -/
inductive Event where
  | error (message : String)
  | stoppedStatus (message : String)
  | responseError (message : String)
  | toolCall (tool_name : String) (tool_args : String)
  | toolResult (tool_name : String) (tool_output : String) (is_error : Bool)
  | thought (content : String)
  | finalResponse (content : String)
  | chunkOut (c : Chunk)
deriving DecidableEq

/-- Python `a or b` on two optional strings (falsy = `None` or `""`). -/
def pyOrOpt (a b : Option String) : Option String :=
  if optTruthy a then a else b

/-- Python `a or b` where `b` is a plain string. -/
def pyOrStr (a : Option String) (b : String) : String :=
  match a with
  | some s => if s == "" then b else s
  | none => b

/-- Mutable locals of the chunk-consumption loop of `run_agent`
(run.py lines 543-549): `error_detected`, `agent_should_terminate`,
`last_tool_name` (reset to `""` each iteration), `last_tool_call`,
`full_response`, plus the events yielded so far. -/
structure StreamState where
  error_detected : Bool
  agent_should_terminate : Bool
  last_tool_name : String
  last_tool_call : Option String
  full_response : String
  events : List Event
deriving DecidableEq

def initialStreamState : StreamState := ⟨false, false, "", none, "", []⟩

/-- Terminator detection on one assistant text (run.py lines 621-625 and
699-701): if any of `</ask>`, `</complete>`, `</web-browser-takeover>`
occurs in the text, `last_tool_call` becomes the matching tag name, with
`ask` checked first, then `complete`, then `web-browser-takeover`. -/
def terminatorUpdate (last_tool_call : Option String) (t : String) : Option String :=
  if strContains t "</ask>" || strContains t "</complete>"
      || strContains t "</web-browser-takeover>" then
    if strContains t "</ask>" then some "ask"
    else if strContains t "</complete>" then some "complete"
    else some "web-browser-takeover"
  else last_tool_call

/-- One chunk of the streaming branch (run.py lines 551-667).

* An error status chunk (`chunk['status'] == 'error'`) sets
  `error_detected`, yields an `error` event and skips the rest (`continue`).
* Other status chunks: `tool_started` / `tool_completed` / `tool_failed` /
  `tool_error` with a truthy tool name update `last_tool_name` and yield a
  `tool_call` / `tool_result` event; then a truthy
  `metadata['agent_should_terminate']` sets the termination flag and records
  `last_tool_call`.
* Assistant chunks yield a `thought` for non-empty text, always accumulate
  `full_response`, and run the terminator check.
* Tool chunks yield a `tool_result` named by the parsing details falling
  back to `last_tool_name`.
* Unknown chunk types are logged and dropped. -/
def processChunkStream (st : StreamState) (c : Chunk) : StreamState :=
  match c with
  | .status statusField message status_type function_name xml_tag_name result
      error_message arguments contentStr ast =>
    if statusField == some "error" then
      { st with error_detected := true,
                events := st.events ++ [.error (message.getD "Unknown error from stream")] }
    else
      let tool_name := pyOrOpt function_name xml_tag_name
      let st₁ :=
        if status_type == some "tool_started" && optTruthy tool_name then
          { st with last_tool_name := tool_name.getD "",
                    events := st.events ++ [.toolCall (tool_name.getD "") arguments] }
        else if status_type == some "tool_completed" && optTruthy tool_name then
          { st with last_tool_name := tool_name.getD "",
                    events := st.events
                      ++ [.toolResult (tool_name.getD "") (result.getD contentStr) false] }
        else if (status_type == some "tool_failed" || status_type == some "tool_error")
            && optTruthy tool_name then
          { st with last_tool_name := tool_name.getD "",
                    events := st.events
                      ++ [.toolResult (tool_name.getD "") (error_message.getD contentStr) true] }
        else st
      if ast then
        { st₁ with agent_should_terminate := true,
                   last_tool_call :=
                     if optTruthy function_name then function_name
                     else if optTruthy xml_tag_name then xml_tag_name
                     else st₁.last_tool_call }
      else st₁
  | .assistant t =>
    let st₁ := if t == "" then st else { st with events := st.events ++ [.thought t] }
    let st₂ := { st₁ with full_response := st₁.full_response ++ t }
    { st₂ with last_tool_call := terminatorUpdate st₂.last_tool_call t }
  | .assistantMalformed => st
  | .toolChunk xml_tag_name output is_error =>
    { st with events :=
        st.events ++ [.toolResult (pyOrStr xml_tag_name st.last_tool_name) output is_error] }
  | .other => st

/-- One chunk of the non-streaming branch (run.py lines 669-705): every chunk
is yielded unchanged; error status chunks set `error_detected`; status
chunks update `last_tool_name` and the termination flag; assistant chunks
accumulate `full_response` and run the terminator check. -/
def processChunkNonStream (st : StreamState) (c : Chunk) : StreamState :=
  match c with
  | .status statusField _message status_type function_name xml_tag_name _result
      _error_message _arguments _contentStr ast =>
    let st₀ := if statusField == some "error" then { st with error_detected := true } else st
    let tool_name := pyOrOpt function_name xml_tag_name
    let st₁ :=
      if (status_type == some "tool_started" || status_type == some "tool_completed"
          || status_type == some "tool_failed" || status_type == some "tool_error")
          && optTruthy tool_name then
        { st₀ with last_tool_name := tool_name.getD "" }
      else st₀
    let st₂ := if ast then { st₁ with agent_should_terminate := true } else st₁
    { st₂ with events := st₂.events ++ [.chunkOut c] }
  | .assistant t =>
    let st₁ := { st with full_response := st.full_response ++ t }
    let st₂ := { st₁ with last_tool_call := terminatorUpdate st₁.last_tool_call t }
    { st₂ with events := st₂.events ++ [.chunkOut c] }
  | .assistantMalformed => { st with events := st.events ++ [.chunkOut c] }
  | .toolChunk _ _ _ => { st with events := st.events ++ [.chunkOut c] }
  | .other => { st with events := st.events ++ [.chunkOut c] }

/-- Consume a whole response stream (run.py `async for chunk in response`). -/
def processChunks (stream : Bool) (cs : List Chunk) : StreamState :=
  cs.foldl (fun st c => if stream then processChunkStream st c else processChunkNonStream st c)
    initialStreamState

/-- Result of `thread_manager.run_thread`: either the error dict checked at
run.py line 536, or the chunk stream. -/
inductive RunThreadResponse where
  | errorResp (message : String)
  | chunks (cs : List Chunk)

/-- Kind of the newest message of type assistant / tool / user, as returned
by the Supabase query at run.py line 401. -/
inductive DriverMsgKind where
  | assistant
  | tool
  | user
deriving DecidableEq

/-- The driver's external collaborators, indexed by the 1-based
`iteration_count`: `check_billing_status` (can_run flag and message), the
latest conversation-message query, and the `run_thread` outcome. -/
structure AgentEnv where
  billing : Nat → Bool × String
  latestConvMessage : Nat → Option DriverMsgKind
  response : Nat → RunThreadResponse

/-- Everything observable about one execution of the loop body. -/
structure IterRecord where
  index : Nat
  billingDenied : Bool
  stoppedOnAssistant : Bool
  consumedChunks : Option (List Chunk)
  llmCalls : Nat
  events : List Event
  error_detected : Bool
  agent_should_terminate : Bool
  continue_ : Bool
deriving DecidableEq

/-- One execution of the `run_agent` loop body for `iteration_count = k`
(run.py lines 380-753):

1. billing gate (lines 385-399): on denial yield one `error` event when
   streaming, one stopped `status` otherwise, and `break`;
2. latest-message check (lines 400-408): if the newest
   assistant/tool/user message is an assistant message, stop;
3. (the ephemeral turn-message assembly of lines 410-498 is embedded
   separately as `ephemeralStep`; its result is only passed into
   `run_thread` and does not influence the control flow below);
4. `run_thread` (lines 508-540): an error dict is yielded and breaks the
   loop; otherwise the chunk stream is consumed by `processChunks`;
5. end-of-iteration decision (lines 707-724): `error_detected` stops;
   otherwise `agent_should_terminate` stops, yielding a `final_response`
   event when streaming; otherwise continue. -/
def iterBody (env : AgentEnv) (stream : Bool) (k : Nat) : IterRecord :=
  let b := env.billing k
  if !b.1 then
    { index := k, billingDenied := true, stoppedOnAssistant := false,
      consumedChunks := none, llmCalls := 0,
      events := if stream then [.error ("Billing limit reached: " ++ b.2)]
                else [.stoppedStatus ("Billing limit reached: " ++ b.2)],
      error_detected := false, agent_should_terminate := false, continue_ := false }
  else if env.latestConvMessage k == some .assistant then
    { index := k, billingDenied := false, stoppedOnAssistant := true,
      consumedChunks := none, llmCalls := 0, events := [],
      error_detected := false, agent_should_terminate := false, continue_ := false }
  else
    match env.response k with
    | .errorResp m =>
      { index := k, billingDenied := false, stoppedOnAssistant := false,
        consumedChunks := none, llmCalls := 1, events := [.responseError m],
        error_detected := false, agent_should_terminate := false, continue_ := false }
    | .chunks cs =>
      let st := processChunks stream cs
      if st.error_detected then
        { index := k, billingDenied := false, stoppedOnAssistant := false,
          consumedChunks := some cs, llmCalls := 1, events := st.events,
          error_detected := true, agent_should_terminate := st.agent_should_terminate,
          continue_ := false }
      else if st.agent_should_terminate then
        { index := k, billingDenied := false, stoppedOnAssistant := false,
          consumedChunks := some cs, llmCalls := 1,
          events := st.events ++ (if stream then [.finalResponse st.full_response] else []),
          error_detected := false, agent_should_terminate := true, continue_ := false }
      else
        { index := k, billingDenied := false, stoppedOnAssistant := false,
          consumedChunks := some cs, llmCalls := 1, events := st.events,
          error_detected := false, agent_should_terminate := false, continue_ := true }

/-- The `while continue_execution and iteration_count < max_iterations` loop
(run.py lines 380-383), structured on the number of remaining iterations:
`remaining = max_iterations - iteration_count`, so the loop guard
`iteration_count < max_iterations` is exactly `remaining > 0`.  Returns the
record of every loop-body execution in order. -/
def runFromAux (env : AgentEnv) (stream : Bool) : Nat → Nat → List IterRecord
  | 0, _ => []
  | remaining + 1, k =>
    let r := iterBody env stream (k + 1)
    if r.continue_ then r :: runFromAux env stream remaining (k + 1) else [r]

/-- `run_agent`'s loop: starts at `iteration_count = 0`,
`continue_execution = True`. -/
def runAgentIters (env : AgentEnv) (stream : Bool) (maxIterations : Nat) : List IterRecord :=
  runFromAux env stream maxIterations 0

/-! ### The ephemeral turn message (run.py lines 410-498) and the message
table

For the claims about `browser_state` / `image_context` handling the
`messages` table itself is modelled: a `Message` row carries its
`message_id`, its `type` column and its `content`.  The store list is in
`created_at` order, so the `order('created_at', desc=True).limit(1)` query
is `getLast?` of the type filter.  A content is either `invalidJson`
(`json.loads` raises), an image-context object (its `base64`, `mime_type`
and `file_path` keys, `None` when absent), or a browser-state object
(`entries` are all keys other than the two screenshot keys that
lines 433-435 pop off). -/

inductive MsgType where
  | user
  | assistant
  | tool
  | status
  | browser_state
  | image_context
  | otherType
deriving DecidableEq

inductive MsgContent where
  | invalidJson
  | imageCtx (base64 : Option String) (mime_type : Option String) (file_path : Option String)
  | browserContent (entries : List (String × String)) (screenshot_base64 : Option String)
      (screenshot_url : Option String)
  | plain (s : String)
deriving DecidableEq

structure Message where
  message_id : Nat
  type : MsgType
  content : MsgContent
deriving DecidableEq

/-- An element of the `temp_message_content_list` (run.py line 412). -/
inductive ContentBlock where
  | text (text : String)
  | image_url (url : String)
deriving DecidableEq

/-- The assembled `temporary_message` (run.py line 496); its role is always
`"user"`. -/
structure TempMessage where
  content : List ContentBlock
deriving DecidableEq

/-- `client.table('messages')...eq('type', t).order('created_at',
desc=True).limit(1)`: the newest message of type `t`. -/
def latestOfType (store : List Message) (t : MsgType) : Option Message :=
  (store.filter (fun m => m.type == t)).getLast?

/-- Stands for `json.dumps(browser_state_text, indent=2)` (Python standard
library): an opaque serialization of the remaining browser-state entries. -/
def jsonDumps (entries : List (String × String)) : String :=
  "\x7b" ++ String.intercalate ", "
    (entries.map (fun p => "\x22" ++ p.1 ++ "\x22: \x22" ++ p.2 ++ "\x22")) ++ "\x7d"

/-- Blocks contributed by the newest `browser_state` message (run.py
lines 416-464): on a decodable content, a text block with the
screenshot-free state when that dict is non-empty, then the screenshot —
`screenshot_url` preferred, base64 data URL as fallback.  A content that
fails to decode reaches the `except` branch: nothing is appended. -/
def browserStateBlocks : MsgContent → List ContentBlock
  | .browserContent entries sb su =>
    (if entries.isEmpty then []
     else [.text ("The following is the current state of the browser:\n" ++ jsonDumps entries)])
    ++ (if optTruthy su then [.image_url (su.getD "")]
        else if optTruthy sb then [.image_url ("data:image/jpeg;base64," ++ sb.getD "")]
        else [])
  | _ => []

/-- Blocks contributed by the newest `image_context` message (run.py
lines 470-487): caption and data URL only when both `base64` and
`mime_type` are truthy; `file_path` defaults to `"unknown file"`. -/
def imageCtxBlocks (b mt fp : Option String) : List ContentBlock :=
  if optTruthy b && optTruthy mt then
    [.text ("Here is the image you requested to see: \x27" ++ fp.getD "unknown file" ++ "\x27"),
     .image_url ("data:" ++ mt.getD "" ++ ";base64," ++ b.getD "")]
  else []

/-- The temporary-message assembly of run.py lines 410-498, returning the
`temporary_message` (if any content blocks were produced) together with the
message table after the step.  When the newest `image_context` message's
content decodes as JSON, that row is deleted (line 489) — whether or not
its fields were usable; when decoding raises, the `except` branch skips the
deletion. -/
def ephemeralStep (store : List Message) : Option TempMessage × List Message :=
  let blocks₁ :=
    match latestOfType store .browser_state with
    | none => []
    | some bm => browserStateBlocks bm.content
  let imagePart :=
    match latestOfType store .image_context with
    | none => (([] : List ContentBlock), store)
    | some m =>
      match m.content with
      | .imageCtx b mt fp =>
        (imageCtxBlocks b mt fp, store.filter (fun x => !(x.message_id == m.message_id)))
      | _ => (([] : List ContentBlock), store)
  let blocks := blocks₁ ++ imagePart.1
  (if blocks.isEmpty then none else some ⟨blocks⟩, imagePart.2)

/-! ## Part C — the local Docker handler
(`backend/sandbox/local_docker_handler.py`)

The module-level `client` variable and the Docker SDK are modelled as
explicit state passing: a `HandlerState` carries the cached client (the
index of the initialization attempt that produced it) and the number of
initialization attempts made so far; a `DockerWorld` fixes the outcome of
each initialization attempt and of every SDK call, keyed by the client and
the call's arguments. -/

/-- Outcome of one run of `_get_or_initialize_client`'s initialization code:
the Unix-socket client connects, or it fails and the `docker.from_env()`
fallback connects, or both fail (`client` stays `None`). -/
inductive InitOutcome where
  | unixOk
  | unixFailEnvOk
  | bothFail
deriving DecidableEq

/-- The module state: the global `client` (identified by the attempt index
that created it) and how many initialization attempts have run. -/
structure HandlerState where
  client : Option Nat
  attempts : Nat
deriving DecidableEq

/-- State at module import: `client: Optional[docker.DockerClient] = None`. -/
def initialHandlerState : HandlerState := ⟨none, 0⟩

/-- Outcome of `container.exec_run` reached through `containers.get`. -/
inductive ExecOutcome where
  | notFound
  | apiError (msg : String)
  | ok (exit_code : Int) (stdout : Option String) (stderr : Option String)
deriving DecidableEq

/-- Outcome of `containers.run` (and the subsequent `reload` / port read),
condensed to failure vs. the container info the function assembles. -/
inductive StartOutcome where
  | imageNotFound
  | apiError (msg : String)
  | okStart (container_id : String) (container_name : String)
      (host_vnc_port : Option Nat) (host_web_port : Option Nat) (status : String)
deriving DecidableEq

/-- Outcome of `containers.get` + `stop` + `remove`. -/
inductive StopOutcome where
  | okStop
  | notFound
  | apiError (msg : String)
deriving DecidableEq

/-- Outcome of `containers.get(id).status`. -/
inductive StatusOutcome where
  | notFound
  | raised
  | okStatus (status : String)
deriving DecidableEq

/-- The Docker daemon and SDK as an oracle.  `initOutcome n` is the outcome
of the `n`-th initialization attempt; the other fields are keyed by the
client identity and the call arguments. -/
structure DockerWorld where
  initOutcome : Nat → InitOutcome
  runContainer : Nat → String → StartOutcome
  statusOf : Nat → String → StatusOutcome
  stopRemove : Nat → String → StopOutcome
  execRun : Nat → String → String → String → ExecOutcome

/-- `_get_or_initialize_client` (local_docker_handler.py lines 12-42): a
cached client is returned as is; otherwise one initialization attempt runs
(Unix socket first, `docker.from_env()` fallback) and a success is stored
in the global `client`. -/
def getOrInitializeClient (w : DockerWorld) (s : HandlerState) : Option Nat × HandlerState :=
  match s.client with
  | some c => (some c, s)
  | none =>
    match w.initOutcome s.attempts with
    | .bothFail => (none, ⟨none, s.attempts + 1⟩)
    | _ => (some s.attempts, ⟨some s.attempts, s.attempts + 1⟩)

/-- `start_sandbox_container` (lines 44-124): no client means no container
(`None`); otherwise `containers.run` either raises (ImageNotFound /
APIError / unexpected, all returning `None`) or yields the info dict built
from the started container.  The port mapping, labels and generated name
are data of the oracle's `okStart` outcome. -/
def start_sandbox_container (w : DockerWorld) (s : HandlerState) (image_name : String) :
    Option StartOutcome × HandlerState :=
  match getOrInitializeClient w s with
  | (none, s₁) => (none, s₁)
  | (some c, s₁) =>
    match w.runContainer c image_name with
    | .imageNotFound => (none, s₁)
    | .apiError _ => (none, s₁)
    | .okStart a b d e f => (some (.okStart a b d e f), s₁)

/-- `stop_and_remove_sandbox_container` (lines 126-150).  The `none` result
models the re-raised NotFound when `raise_not_found` is set. -/
def stop_and_remove_sandbox_container (w : DockerWorld) (s : HandlerState)
    (container_id : String) (raise_not_found : Bool) : Option Bool × HandlerState :=
  match getOrInitializeClient w s with
  | (none, s₁) => (some false, s₁)
  | (some c, s₁) =>
    match w.stopRemove c container_id with
    | .okStop => (some true, s₁)
    | .notFound => (if raise_not_found then none else some false, s₁)
    | .apiError _ => (some false, s₁)

/-- `get_sandbox_container_status` (lines 152-166). -/
def get_sandbox_container_status (w : DockerWorld) (s : HandlerState)
    (container_id : String) : Option String × HandlerState :=
  match getOrInitializeClient w s with
  | (none, s₁) => (none, s₁)
  | (some c, s₁) =>
    match w.statusOf c container_id with
    | .notFound => (some "not_found", s₁)
    | .raised => (some "error", s₁)
    | .okStatus st => (some st, s₁)

/-- `execute_command_in_container` (lines 168-201): without a client it
returns `(None, "Docker client not available", -1)`; stdout/stderr are the
demuxed streams decoded with `""` for a missing side.  (`timeout_seconds`
is accepted but never used by the source.) -/
def execute_command_in_container (w : DockerWorld) (s : HandlerState)
    (container_id command workdir : String) :
    (Option String × Option String × Option Int) × HandlerState :=
  match getOrInitializeClient w s with
  | (none, s₁) => ((none, some "Docker client not available", some (-1)), s₁)
  | (some c, s₁) =>
    match w.execRun c container_id command workdir with
    | .notFound => ((none, some "Container not found", some (-1)), s₁)
    | .apiError e => ((none, some e, some (-1)), s₁)
    | .ok exit_code so se => ((some (so.getD ""), some (se.getD ""), some exit_code), s₁)

/-! ### `ls -lA` output parsing used by `list_files_in_container` -/

/-- Decimal digits to a natural number. -/
def digitsToNat (ds : List Char) : Nat :=
  ds.foldl (fun n c => n * 10 + (c.toNat - 48)) 0

/-- Python `int(s)`: optional surrounding whitespace, optional sign, at least
one digit; anything else raises `ValueError`. -/
def pyInt (s : String) : Option Int :=
  let cs := (pyStrip s).data
  match cs with
  | [] => none
  | '-' :: ds =>
    if ds ≠ [] && ds.all Char.isDigit then some (-(Int.ofNat (digitsToNat ds))) else none
  | '+' :: ds =>
    if ds ≠ [] && ds.all Char.isDigit then some (Int.ofNat (digitsToNat ds)) else none
  | ds =>
    if ds.all Char.isDigit then some (Int.ofNat (digitsToNat ds)) else none

/-- Python `s.split(None, maxsplit)` on a character list: skip leading
whitespace; once `maxsplit` splits have been made the remainder (trailing
whitespace included) is the last part. -/
def pySplitNoneAux (cs : List Char) : Nat → List (List Char)
  | 0 =>
    match cs.dropWhile Char.isWhitespace with
    | [] => []
    | rest => [rest]
  | m + 1 =>
    match cs.dropWhile Char.isWhitespace with
    | [] => []
    | rest =>
      rest.takeWhile (fun c => !c.isWhitespace) ::
        pySplitNoneAux (rest.dropWhile (fun c => !c.isWhitespace)) m

/-- Python `line.split(None, maxsplit)`. -/
def pySplitNone (s : String) (maxsplit : Nat) : List String :=
  (pySplitNoneAux s.data maxsplit).map (fun cs => (⟨cs⟩ : String))

/-- Python `s.split(sep)` for a one-character separator (empty parts kept). -/
def splitOnChar (cs : List Char) (sep : Char) : List (List Char) :=
  match cs with
  | [] => [[]]
  | c :: t =>
    let r := splitOnChar t sep
    if c == sep then [] :: r
    else
      match r with
      | h :: t₂ => (c :: h) :: t₂
      | [] => [[c]]

/-- Python `s.startswith(pre)`. -/
def pyStartsWith (s pre : String) : Bool :=
  pre.data.isPrefixOf s.data

/-- One `FileInfo` dict of `list_files_in_container`. -/
structure FileInfo where
  name : String
  type : String
  size : Int
deriving DecidableEq

/-- Result of one line of the `ls -lA` parsing loop (lines 297-322): blank
or short lines are skipped with a warning; a size that `int()` rejects
raises and aborts the whole listing. -/
inductive LsLine where
  | skipLine
  | fatal
  | entry (f : FileInfo)
deriving DecidableEq

def parseLsLine (line : String) : LsLine :=
  if pyStrip line == "" then .skipLine
  else
    let parts := pySplitNone line 8
    if parts.length < 9 then .skipLine
    else
      let permissions := parts.getD 0 ""
      match pyInt (parts.getD 4 "") with
      | none => .fatal
      | some size_bytes =>
        let file_type :=
          if pyStartsWith permissions "d" then "directory"
          else if pyStartsWith permissions "-" then "file"
          else "unknown"
        .entry ⟨parts.getD 8 "", file_type, size_bytes⟩

def collectLsEntries : List String → Option (List FileInfo)
  | [] => some []
  | l :: ls =>
    match parseLsLine l with
    | .skipLine => collectLsEntries ls
    | .fatal => none
    | .entry f => (collectLsEntries ls).map (fun r => f :: r)

/-- `stdout_str.strip().split('\n')`, then drop a leading `total` line. -/
def lsLines (stdout_str : String) : List String :=
  let ls := (splitOnChar (pyStrip stdout_str).data '\n').map (fun cs => (⟨cs⟩ : String))
  match ls with
  | [] => []
  | l₀ :: rest => if charsContains l₀.data "total".data then rest else l₀ :: rest

/-- `list_files_in_container` (lines 262-330): every failure path — no
client, missing container, a raised SDK error, a non-zero exit code, or an
unparsable size — returns the empty list. -/
def list_files_in_container (w : DockerWorld) (s : HandlerState)
    (container_id path : String) : List FileInfo × HandlerState :=
  match getOrInitializeClient w s with
  | (none, s₁) => ([], s₁)
  | (some c, s₁) =>
    match w.execRun c container_id ("ls -lA --time-style=long-iso " ++ path) "/" with
    | .notFound => ([], s₁)
    | .apiError _ => ([], s₁)
    | .ok exit_code so _se =>
      if exit_code ≠ 0 then ([], s₁)
      else
        match collectLsEntries (lsLines (so.getD "")) with
        | none => ([], s₁)
        | some fs => (fs, s₁)

/-- A top-level operation of the handler, for stating the initialization
contract uniformly. -/
inductive DockerOp where
  | startOp (image_name : String)
  | stopRemoveOp (container_id : String) (raise_not_found : Bool)
  | statusOp (container_id : String)
  | execOp (container_id command workdir : String)
  | listOp (container_id path : String)
deriving DecidableEq

inductive DockerOpResult where
  | startRes (r : Option StartOutcome)
  | stopRes (r : Option Bool)
  | statusRes (r : Option String)
  | execRes (r : Option String × Option String × Option Int)
  | listRes (r : List FileInfo)
deriving DecidableEq

/-- Dispatch one top-level handler operation. -/
def runDockerOp (w : DockerWorld) (s : HandlerState) : DockerOp → DockerOpResult × HandlerState
  | .startOp image_name =>
    let r := start_sandbox_container w s image_name
    (.startRes r.1, r.2)
  | .stopRemoveOp cid rnf =>
    let r := stop_and_remove_sandbox_container w s cid rnf
    (.stopRes r.1, r.2)
  | .statusOp cid =>
    let r := get_sandbox_container_status w s cid
    (.statusRes r.1, r.2)
  | .execOp cid cmd wd =>
    let r := execute_command_in_container w s cid cmd wd
    (.execRes r.1, r.2)
  | .listOp cid path =>
    let r := list_files_in_container w s cid path
    (.listRes r.1, r.2)

/-- The result each operation returns when the Docker client cannot be
initialized: `None`, `False`, `None`, `(None, "Docker client not
available", -1)` and `[]` respectively. -/
def unavailableResult : DockerOp → DockerOpResult
  | .startOp _ => .startRes none
  | .stopRemoveOp _ _ => .stopRes (some false)
  | .statusOp _ => .statusRes none
  | .execOp _ _ _ => .execRes (none, some "Docker client not available", some (-1))
  | .listOp _ _ => .listRes []

/-! ## Part D — `delete_sandbox` (`backend/sandbox/sandbox.py` lines 404-470)

The project row's `sandbox` column is `none` when the row is missing, the
column is `NULL`, or the dict is empty (all falsy, line 410); otherwise it
carries the `type` and `id` keys (`None` when absent).  The Daytona client
and service are an oracle. -/

structure SandboxInfo where
  sandboxType : Option String
  sandboxId : Option String
deriving DecidableEq

inductive DaytonaDeleteOutcome where
  | okDelete
  | notFoundErr
  | otherErr
deriving DecidableEq

structure SandboxEnv where
  daytonaConfigured : Bool
  daytonaDelete : String → DaytonaDeleteOutcome

/-- Observable outcome of `delete_sandbox`: the returned flag, whether the
project row's `sandbox` column was cleared (`update({'sandbox': None})`),
what the backend deletion reported (`none` when no backend deletion was
attempted), and the handler state afterwards. -/
structure DeleteResult where
  returned : Bool
  cleared : Bool
  backendReported : Option Bool
  handlerState : HandlerState
deriving DecidableEq

/-- `delete_sandbox`:

* no sandbox info on the project: log and return `True` (line 412);
* `id` or `type` missing/falsy: clear the column and return `False`
  (lines 418-421);
* `local_docker`: `stop_and_remove_sandbox_container(id,
  raise_not_found=False)`; on failure line 429 calls
  `_get_or_initialize_client()` once more for diagnosis; the column is
  cleared exactly when deletion succeeded, and that flag is returned;
* `daytona`: unconfigured client means `False` without clearing; otherwise
  the outcome of `daytona.remove`, a `not found` error counting as success;
* any other type: clear the column and return `False` (lines 455-458). -/
def delete_sandbox (w : DockerWorld) (env : SandboxEnv) (s : HandlerState)
    (sandboxField : Option SandboxInfo) : DeleteResult :=
  match sandboxField with
  | none => ⟨true, false, none, s⟩
  | some info =>
    if !optTruthy info.sandboxId || !optTruthy info.sandboxType then
      ⟨false, true, none, s⟩
    else
      let ty := info.sandboxType.getD ""
      let cid := info.sandboxId.getD ""
      if ty == "local_docker" then
        let r := stop_and_remove_sandbox_container w s cid false
        let deleted := r.1.getD false
        let s₂ := if !deleted then (getOrInitializeClient w r.2).2 else r.2
        ⟨deleted, deleted, some deleted, s₂⟩
      else if ty == "daytona" then
        if !env.daytonaConfigured then ⟨false, false, none, s⟩
        else
          let deleted :=
            match env.daytonaDelete cid with
            | .okDelete => true
            | .notFoundErr => true
            | .otherErr => false
          ⟨deleted, deleted, some deleted, s⟩
      else
        ⟨false, true, none, s⟩

/-! ## Loop lemmas -/

theorem runFromAux_succ (env : AgentEnv) (stream : Bool) (n k : Nat) :
    runFromAux env stream (n + 1) k =
      if (iterBody env stream (k + 1)).continue_ then
        iterBody env stream (k + 1) :: runFromAux env stream n (k + 1)
      else [iterBody env stream (k + 1)] := rfl

theorem runFromAux_length_le (env : AgentEnv) (stream : Bool) :
    ∀ fuel k, (runFromAux env stream fuel k).length ≤ fuel := by
  intro fuel
  induction fuel with
  | zero => intro k; simp [runFromAux]
  | succ n ih =>
    intro k
    rw [runFromAux_succ]
    by_cases h : (iterBody env stream (k + 1)).continue_
    · simp only [h, if_true, List.length_cons]
      exact Nat.succ_le_succ (ih (k + 1))
    · simp [h]

theorem runFromAux_get? (env : AgentEnv) (stream : Bool) :
    ∀ fuel k i, i < (runFromAux env stream fuel k).length →
      (runFromAux env stream fuel k).get? i = some (iterBody env stream (k + i + 1)) := by
  intro fuel
  induction fuel with
  | zero => intro k i h; simp [runFromAux] at h
  | succ n ih =>
    intro k i h
    rw [runFromAux_succ] at h ⊢
    by_cases hc : (iterBody env stream (k + 1)).continue_
    · simp only [hc, if_true] at h ⊢
      match i with
      | 0 => rfl
      | j + 1 =>
        simp only [List.length_cons, Nat.add_lt_add_iff_right] at h
        simp only [List.get?]
        have := ih (k + 1) j h
        rw [this]
        congr 2
        omega
    · simp [hc] at h ⊢
      match i, h with
      | 0, _ => rfl

theorem runFromAux_stop (env : AgentEnv) (stream : Bool) :
    ∀ fuel k i, i < (runFromAux env stream fuel k).length →
      (iterBody env stream (k + i + 1)).continue_ = false →
      (runFromAux env stream fuel k).length = i + 1 := by
  intro fuel
  induction fuel with
  | zero => intro k i h; simp [runFromAux] at h
  | succ n ih =>
    intro k i h hstop
    rw [runFromAux_succ] at h ⊢
    by_cases hc : (iterBody env stream (k + 1)).continue_
    · simp only [hc, if_true] at h ⊢
      match i with
      | 0 =>
        rw [hc] at hstop
        exact absurd hstop (by simp)
      | j + 1 =>
        simp only [List.length_cons, Nat.add_lt_add_iff_right] at h
        simp only [List.length_cons]
        have heq : k + (j + 1) + 1 = (k + 1) + j + 1 := by omega
        rw [heq] at hstop
        rw [ih (k + 1) j h hstop]
    · simp [hc] at h ⊢
      match i, h with
      | 0, _ => rfl

/-! ## Claim C1 -/

/-- **C1**: for every run of the `run_agent` loop with a given
`max_iterations`, and for every behaviour of the billing service, the
message table and the model/response processor — including one that never
emits a terminator — the loop body executes at most `max_iterations` times
before the function returns. -/
theorem c1_iteration_cap (env : AgentEnv) (stream : Bool) (maxIterations : Nat) :
    (runAgentIters env stream maxIterations).length ≤ maxIterations :=
  runFromAux_length_le env stream maxIterations 0

/-! ## Claim C4 -/

/-- **C4**: if `check_billing_status` denies the run at the start of
iteration `k+1` (0-based position `k`) and that iteration is entered, the
driver emits exactly one `error` event when streaming (one stopped `status`
otherwise), makes zero LLM calls in that iteration, and exits the loop. -/
theorem c4_billing_gate (env : AgentEnv) (stream : Bool) (maxIterations k : Nat)
    (hdenied : (env.billing (k + 1)).1 = false)
    (hentered : k < (runAgentIters env stream maxIterations).length) :
    (runAgentIters env stream maxIterations).get? k =
      some { index := k + 1, billingDenied := true, stoppedOnAssistant := false,
             consumedChunks := none, llmCalls := 0,
             events :=
               if stream then [.error ("Billing limit reached: " ++ (env.billing (k + 1)).2)]
               else [.stoppedStatus ("Billing limit reached: " ++ (env.billing (k + 1)).2)],
             error_detected := false, agent_should_terminate := false, continue_ := false }
    ∧ (runAgentIters env stream maxIterations).length = k + 1 := by
  have hbody : iterBody env stream (k + 1) =
      { index := k + 1, billingDenied := true, stoppedOnAssistant := false,
        consumedChunks := none, llmCalls := 0,
        events :=
          if stream then [.error ("Billing limit reached: " ++ (env.billing (k + 1)).2)]
          else [.stoppedStatus ("Billing limit reached: " ++ (env.billing (k + 1)).2)],
        error_detected := false, agent_should_terminate := false, continue_ := false } := by
    simp only [iterBody, hdenied]
    rfl
  refine ⟨?_, ?_⟩
  · have := runFromAux_get? env stream maxIterations 0 k hentered
    simpa [runAgentIters, hbody] using this
  · exact runFromAux_stop env stream maxIterations 0 k hentered
      (by rw [Nat.zero_add, hbody])

/-- Witness environment for C4: billing denies from the first iteration. -/
def c4Env : AgentEnv :=
  { billing := fun _ => (false, "Monthly limit of 60 minutes reached"),
    latestConvMessage := fun _ => some .user,
    response := fun _ => .chunks [] }

theorem c4_billing_gate_witness :
    (runAgentIters c4Env true 100).get? 0 =
      some { index := 1, billingDenied := true, stoppedOnAssistant := false,
             consumedChunks := none, llmCalls := 0,
             events := [.error "Billing limit reached: Monthly limit of 60 minutes reached"],
             error_detected := false, agent_should_terminate := false, continue_ := false }
    ∧ (runAgentIters c4Env true 100).length = 1 := by
  have h := c4_billing_gate c4Env true 100 0 rfl (by decide)
  simpa using h

/-! ## Claim C2 -/

/-- An assistant chunk in which one of the three terminator tags closes
(run.py line 621). -/
def chunkHasClosedTerminator : Chunk → Bool
  | .assistant t =>
    strContains t "</ask>" || strContains t "</complete>"
      || strContains t "</web-browser-takeover>"
  | _ => false

/-- An error status chunk, `chunk.get('status') == 'error'` (run.py
line 553). -/
def isErrorChunk : Chunk → Bool
  | .status statusField _ _ _ _ _ _ _ _ _ => statusField == some "error"
  | _ => false

/-- A status chunk whose metadata carries `agent_should_terminate` and that
the streaming branch will actually parse (an error status chunk is skipped
by the `continue` at run.py line 559). -/
def isTerminateStatusChunk : Chunk → Bool
  | .status statusField _ _ _ _ _ _ _ _ ast => ast && !(statusField == some "error")
  | _ => false

def isFinalResponseEvent : Event → Bool
  | .finalResponse _ => true
  | _ => false

/-- Modelled from the spec: the ResponseProcessor
(`agentpress/response_processor.py`, absent from the sources; only its tests
are present) emits, when one of the terminator tags `ask` / `complete` /
`web-browser-takeover` closes in the assistant output, a terminal status
event whose metadata carries `agent_should_terminate` (spec §4.6 items 3-4:
"the three canonical end-of-turn markers … when closed, set
terminate_requested = true", "a terminal status event with
agent_should_terminate if a terminator was seen").  A chunk stream is
processor-well-formed when a closed terminator in it comes with such a
status chunk. -/
def processorWellFormed (cs : List Chunk) : Bool :=
  !cs.any chunkHasClosedTerminator || cs.any isTerminateStatusChunk

theorem processChunkStream_terminate_mono (st : StreamState) (c : Chunk)
    (h : st.agent_should_terminate = true) :
    (processChunkStream st c).agent_should_terminate = true := by
  cases c <;> simp only [processChunkStream] <;> (repeat' split) <;> simp_all

theorem processChunkNonStream_terminate_mono (st : StreamState) (c : Chunk)
    (h : st.agent_should_terminate = true) :
    (processChunkNonStream st c).agent_should_terminate = true := by
  cases c <;> simp only [processChunkNonStream] <;> (repeat' split) <;> simp_all

theorem processChunkStream_terminate_set (st : StreamState) (c : Chunk)
    (h : isTerminateStatusChunk c = true) :
    (processChunkStream st c).agent_should_terminate = true := by
  cases c <;> simp [isTerminateStatusChunk] at h
  case status sf m sty fn xtn r em args cstr ast =>
    obtain ⟨h1, h2⟩ := h
    have h2b : (sf == some "error") = false := by
      simp only [beq_eq_false_iff_ne, ne_eq]
      exact h2
    simp only [processChunkStream, h1, h2b]
    (repeat' split) <;> simp_all

theorem processChunkNonStream_terminate_set (st : StreamState) (c : Chunk)
    (h : isTerminateStatusChunk c = true) :
    (processChunkNonStream st c).agent_should_terminate = true := by
  cases c <;> simp [isTerminateStatusChunk] at h
  case status sf m sty fn xtn r em args cstr ast =>
    obtain ⟨h1, h2⟩ := h
    simp only [processChunkNonStream, h1]
    (repeat' split) <;> simp_all

theorem processChunkStream_error_eq (st : StreamState) (c : Chunk)
    (h : isErrorChunk c = false) :
    (processChunkStream st c).error_detected = st.error_detected := by
  cases c <;> simp only [isErrorChunk] at h <;>
    simp only [processChunkStream] <;> (repeat' split) <;> simp_all

theorem processChunkNonStream_error_eq (st : StreamState) (c : Chunk)
    (h : isErrorChunk c = false) :
    (processChunkNonStream st c).error_detected = st.error_detected := by
  cases c <;> simp only [isErrorChunk] at h <;>
    simp only [processChunkNonStream] <;> (repeat' split) <;> simp_all

/-- The chunk-consumption step function of `processChunks`. -/
def chunkStep (stream : Bool) (st : StreamState) (c : Chunk) : StreamState :=
  if stream then processChunkStream st c else processChunkNonStream st c

theorem processChunks_eq_foldl (stream : Bool) (cs : List Chunk) :
    processChunks stream cs = cs.foldl (chunkStep stream) initialStreamState := rfl

theorem foldl_terminate_aux (stream : Bool) :
    ∀ (cs : List Chunk) (st : StreamState),
      ((∃ c ∈ cs, isTerminateStatusChunk c = true) ∨ st.agent_should_terminate = true) →
      (cs.foldl (chunkStep stream) st).agent_should_terminate = true := by
  intro cs
  induction cs with
  | nil =>
    intro st h
    rcases h with ⟨c, hc, _⟩ | h
    · exact absurd hc (List.not_mem_nil c)
    · simpa using h
  | cons c cs ih =>
    intro st h
    rw [List.foldl_cons]
    rcases h with ⟨d, hd, hdt⟩ | h
    · rcases List.mem_cons.mp hd with rfl | hd'
      · refine ih _ (Or.inr ?_)
        cases stream <;> simp only [chunkStep, if_true, if_false, Bool.false_eq_true]
        · exact processChunkNonStream_terminate_set st d hdt
        · exact processChunkStream_terminate_set st d hdt
      · exact ih _ (Or.inl ⟨d, hd', hdt⟩)
    · refine ih _ (Or.inr ?_)
      cases stream <;> simp only [chunkStep, if_true, if_false, Bool.false_eq_true]
      · exact processChunkNonStream_terminate_mono st c h
      · exact processChunkStream_terminate_mono st c h

theorem foldl_error_aux (stream : Bool) :
    ∀ (cs : List Chunk) (st : StreamState), cs.any isErrorChunk = false →
      (cs.foldl (chunkStep stream) st).error_detected = st.error_detected := by
  intro cs
  induction cs with
  | nil => intro st _; rfl
  | cons c cs ih =>
    intro st h
    simp only [List.any_cons, Bool.or_eq_false_iff] at h
    rw [List.foldl_cons, ih _ h.2]
    cases stream <;> simp only [chunkStep, if_true, if_false, Bool.false_eq_true]
    · exact processChunkNonStream_error_eq st c h.1
    · exact processChunkStream_error_eq st c h.1

theorem processChunks_terminate (stream : Bool) (cs : List Chunk)
    (h : cs.any isTerminateStatusChunk = true) :
    (processChunks stream cs).agent_should_terminate = true := by
  rw [processChunks_eq_foldl]
  exact foldl_terminate_aux stream cs initialStreamState
    (Or.inl (by simpa using List.any_eq_true.mp h))

theorem processChunks_no_error (stream : Bool) (cs : List Chunk)
    (h : cs.any isErrorChunk = false) :
    (processChunks stream cs).error_detected = false := by
  rw [processChunks_eq_foldl]
  rw [foldl_error_aux stream cs initialStreamState h]
  rfl

/-- **C2 (counterexample)**: environment refuting the claim as stated.  The
single iteration's stream contains an error status chunk, an assistant chunk
that closes `</complete>`, and the processor's terminating status chunk. -/
def c2Chunks : List Chunk :=
  [.status (some "error") (some "boom") none none none none none "" "" false,
   .assistant "All done. </complete>",
   .status none none (some "thread_run_end") (some "complete") none none none "" "" true]

def c2Env : AgentEnv :=
  { billing := fun _ => (true, "OK"),
    latestConvMessage := fun _ => some .user,
    response := fun _ => .chunks c2Chunks }

/-- **C2 is false as stated**: in this streaming run the terminator tag
`complete` closes in the assistant output consumed during the (only)
iteration, `terminate_requested` is set and the loop exits right after the
iteration — but no `final_response` event is emitted, because the error
chunk in the same stream takes precedence (run.py lines 708-712 are checked
before lines 713-717). -/
theorem c2_counterexample :
    c2Chunks.any chunkHasClosedTerminator = true
    ∧ runAgentIters c2Env true 100 =
        [{ index := 1, billingDenied := false, stoppedOnAssistant := false,
           consumedChunks := some c2Chunks, llmCalls := 1,
           events := [.error "boom", .thought "All done. </complete>"],
           error_detected := true, agent_should_terminate := true, continue_ := false }]
    ∧ ((runAgentIters c2Env true 100).all
        (fun r => !(r.events.any isFinalResponseEvent))) = true := by
  refine ⟨by decide, ?_, ?_⟩ <;> decide

/-- **C2 (amended)**: whenever one of the three terminator tags closes in
the assistant output consumed during an entered iteration (and the
response-processor stream is well-formed in the spec's sense),
`terminate_requested` is set for that iteration and the loop exits
immediately after it, performing no further iterations; when streaming, a
`final_response` event carrying the accumulated assistant text is
additionally emitted provided no error chunk was detected in that
iteration's stream. -/
theorem c2_terminator_stops_loop (env : AgentEnv) (stream : Bool)
    (maxIterations k : Nat) (cs : List Chunk)
    (hbill : (env.billing (k + 1)).1 = true)
    (hlast : (env.latestConvMessage (k + 1) == some .assistant) = false)
    (hresp : env.response (k + 1) = .chunks cs)
    (hwf : processorWellFormed cs = true)
    (hterm : cs.any chunkHasClosedTerminator = true)
    (hentered : k < (runAgentIters env stream maxIterations).length) :
    (runAgentIters env stream maxIterations).get? k = some (iterBody env stream (k + 1))
    ∧ (iterBody env stream (k + 1)).agent_should_terminate = true
    ∧ (runAgentIters env stream maxIterations).length = k + 1
    ∧ (stream = true → cs.any isErrorChunk = false →
        (iterBody env stream (k + 1)).events.getLast? =
          some (.finalResponse (processChunks true cs).full_response)) := by
  have hts : cs.any isTerminateStatusChunk = true := by
    simp only [processorWellFormed, Bool.or_eq_true, Bool.not_eq_true'] at hwf
    rcases hwf with hwf | hwf
    · rw [hterm] at hwf; exact absurd hwf (by simp)
    · exact hwf
  have hterm' : (processChunks stream cs).agent_should_terminate = true :=
    processChunks_terminate stream cs hts
  have hget : (runAgentIters env stream maxIterations).get? k =
      some (iterBody env stream (k + 1)) := by
    have := runFromAux_get? env stream maxIterations 0 k hentered
    simpa [runAgentIters] using this
  have hcont : (iterBody env stream (k + 1)).continue_ = false := by
    simp only [iterBody, hbill, hlast, hresp]
    by_cases he : (processChunks stream cs).error_detected
    · simp [he]
    · simp [he, hterm']
  have hflag : (iterBody env stream (k + 1)).agent_should_terminate = true := by
    simp only [iterBody, hbill, hlast, hresp]
    by_cases he : (processChunks stream cs).error_detected
    · simp [he, hterm']
    · simp [he, hterm']
  refine ⟨hget, hflag, ?_, ?_⟩
  · have := runFromAux_stop env stream maxIterations 0 k hentered
      (by rw [Nat.zero_add]; exact hcont)
    simpa [runAgentIters] using this
  · intro hs hnoerr
    subst hs
    have he : (processChunks true cs).error_detected = false :=
      processChunks_no_error true cs hnoerr
    simp only [iterBody, hbill, hlast, hresp, he, hterm']
    simp

/-- Witness environment for the amended C2: a well-formed stream in which
`</complete>` closes and the processor emits the terminating status. -/
def c2wChunks : List Chunk :=
  [.assistant "Done. </complete>",
   .status none none (some "thread_run_end") (some "complete") none none none "" "" true]

def c2wEnv : AgentEnv :=
  { billing := fun _ => (true, "OK"),
    latestConvMessage := fun _ => some .user,
    response := fun _ => .chunks c2wChunks }

theorem c2_terminator_stops_loop_witness :
    (iterBody c2wEnv true 1).agent_should_terminate = true
    ∧ (runAgentIters c2wEnv true 100).length = 1
    ∧ (iterBody c2wEnv true 1).events.getLast? =
        some (.finalResponse (processChunks true c2wChunks).full_response) := by
  have h := c2_terminator_stops_loop c2wEnv true 100 0 c2wChunks rfl rfl rfl
    (by decide) (by decide) (by decide)
  exact ⟨h.2.1, h.2.2.1, h.2.2.2 rfl (by decide)⟩

/-! ## Claim C6 -/

/-- The element tree that `xml.etree.ElementTree.fromstring` (Python
standard library) produces for the S5 input after the parser's dummy-root
wrapping, i.e. for
`<dummy_root><function_calls><invoke name="create_file"><parameter
name="path">a.txt</parameter><parameter
name="content">hi</parameter></invoke></function_calls></dummy_root>`:
the children of `dummy_root` are a single `function_calls` element holding
one `invoke` element with two `parameter` children whose leading texts are
`a.txt` and `hi`. -/
def c6Input : List XMLElement :=
  [⟨"function_calls", [], none,
    [⟨"invoke", [("name", "create_file")], none,
      [⟨"parameter", [("name", "path")], some "a.txt", []⟩,
       ⟨"parameter", [("name", "content")], some "hi", []⟩]⟩]⟩]

/-- **C6**: parsing the S5 input yields exactly one ToolCall named
`create_file` whose kwargs map is exactly
`\x7bpath: "a.txt", content: "hi"\x7d`. -/
theorem c6_create_file_parse :
    XMLToolParser.parse c6Input =
      [{ tool_name := "create_file",
         tool_kwargs := [("path", "a.txt"), ("content", "hi")] }] := by
  simp [XMLToolParser.parse, flattenToolElements, parseToolElement, c6Input,
        pyLower, attrGet, dictInsert, pyStripText, pyStrip]

/-! ## Claim C3 -/

/-- Modelled from the spec: the per-response tool-call cap of the
ResponseProcessor (`agentpress/response_processor.py`, absent from the
sources; only its tests are present).  run.py line 518 passes
`max_xml_tool_calls=10` into `thread_manager.run_thread`; spec §4.3
("Hard cap: parsing stops after N=10 tool calls per LLM response
(configurable); excess invocations are discarded with a warning event")
and §4.6 item 5 ("stop scheduling new tool executions after
`max_tool_calls`; emit a warning event and discard excess invocations").
The processor keeps the first `maxToolCalls` calls parsed by
`XMLToolParser.parse`, in source order, and the second component records
that the warning event was emitted. -/
def processToolCalls (maxToolCalls : Nat) (rootChildren : List XMLElement) :
    List ToolCall × Bool :=
  let calls := XMLToolParser.parse rootChildren
  (calls.take maxToolCalls, decide (calls.length > maxToolCalls))

/-- An input with 12 well-formed tool elements (simple format, one
parameter each). -/
def c3Input : List XMLElement :=
  [⟨"tool01", [], none, [⟨"p", [], some "v01", []⟩]⟩,
   ⟨"tool02", [], none, [⟨"p", [], some "v02", []⟩]⟩,
   ⟨"tool03", [], none, [⟨"p", [], some "v03", []⟩]⟩,
   ⟨"tool04", [], none, [⟨"p", [], some "v04", []⟩]⟩,
   ⟨"tool05", [], none, [⟨"p", [], some "v05", []⟩]⟩,
   ⟨"tool06", [], none, [⟨"p", [], some "v06", []⟩]⟩,
   ⟨"tool07", [], none, [⟨"p", [], some "v07", []⟩]⟩,
   ⟨"tool08", [], none, [⟨"p", [], some "v08", []⟩]⟩,
   ⟨"tool09", [], none, [⟨"p", [], some "v09", []⟩]⟩,
   ⟨"tool10", [], none, [⟨"p", [], some "v10", []⟩]⟩,
   ⟨"tool11", [], none, [⟨"p", [], some "v11", []⟩]⟩,
   ⟨"tool12", [], none, [⟨"p", [], some "v12", []⟩]⟩]

/-- **C3**: with the cap at its configured value, at most `maxToolCalls`
ToolCalls are produced and executed for any response; on the 12-element
input the full parse finds 12 calls, exactly 10 survive the cap (the first
10, in source order) and the excess is discarded with a warning. -/
theorem c3_tool_call_cap :
    (∀ (maxToolCalls : Nat) (input : List XMLElement),
      ((processToolCalls maxToolCalls input).1).length ≤ maxToolCalls)
    ∧ (XMLToolParser.parse c3Input).length = 12
    ∧ ((processToolCalls 10 c3Input).1).length = 10
    ∧ (processToolCalls 10 c3Input).1 = (XMLToolParser.parse c3Input).take 10
    ∧ (processToolCalls 10 c3Input).2 = true := by
  have heval : XMLToolParser.parse c3Input =
      [⟨"tool01", [("p", "v01")]⟩, ⟨"tool02", [("p", "v02")]⟩,
       ⟨"tool03", [("p", "v03")]⟩, ⟨"tool04", [("p", "v04")]⟩,
       ⟨"tool05", [("p", "v05")]⟩, ⟨"tool06", [("p", "v06")]⟩,
       ⟨"tool07", [("p", "v07")]⟩, ⟨"tool08", [("p", "v08")]⟩,
       ⟨"tool09", [("p", "v09")]⟩, ⟨"tool10", [("p", "v10")]⟩,
       ⟨"tool11", [("p", "v11")]⟩, ⟨"tool12", [("p", "v12")]⟩] := by
    simp [XMLToolParser.parse, flattenToolElements, parseToolElement, c3Input,
          pyLower, attrGet, dictInsert, pyStripText, pyStrip]
  refine ⟨?_, ?_, ?_, rfl, ?_⟩
  · intro m input
    simpa [processToolCalls] using List.length_take_le m (XMLToolParser.parse input)
  · rw [heval]
    rfl
  · simp [processToolCalls, heval]
  · simp [processToolCalls, heval]

/-! ## Claim C9 -/

theorem dictInsert_fresh (d : List (String × String)) (k v : String)
    (h : ∀ q ∈ d, q.1 ≠ k) :
    dictInsert d k v = d ++ [(k, v)] := by
  unfold dictInsert
  rw [if_neg]
  simp only [List.any_eq_true, beq_iff_eq, not_exists]
  intro q
  intro hq
  rcases hq with ⟨hmem, hk⟩
  exact h q hmem hk

theorem foldl_children_kwargs :
    ∀ (cs : List XMLElement) (d : List (String × String)),
      (∀ c ∈ cs, ∀ q ∈ d, q.1 ≠ c.tag) →
      (cs.map XMLElement.tag).Nodup →
      cs.foldl (fun acc c => dictInsert acc c.tag (pyStripText c.text)) d
        = d ++ cs.map (fun c => (c.tag, pyStripText c.text)) := by
  intro cs
  induction cs with
  | nil => intro d _ _; simp
  | cons c cs ih =>
    intro d hfresh hnodup
    rw [List.foldl_cons]
    rw [dictInsert_fresh d c.tag (pyStripText c.text)
      (fun q hq => hfresh c (List.mem_cons_self c cs) q hq)]
    simp only [List.map_cons, List.nodup_cons] at hnodup
    rw [ih (d ++ [(c.tag, pyStripText c.text)]) ?_ hnodup.2]
    · simp
    · intro c' hc' q hq
      rcases List.mem_append.mp hq with hq | hq
      · exact hfresh c' (List.mem_cons_of_mem c hc') q hq
      · simp only [List.mem_singleton] at hq
        subst hq
        intro heq
        have hteq : c.tag = c'.tag := heq
        exact hnodup.1 (hteq ▸ List.mem_map_of_mem XMLElement.tag hc')

theorem foldl_attrib_kwargs :
    ∀ (as d : List (String × String)),
      (∀ a ∈ as, ∀ q ∈ d, q.1 ≠ a.1) →
      (as.map Prod.fst).Nodup →
      as.foldl (fun acc p => dictInsert acc p.1 p.2) d = d ++ as := by
  intro as
  induction as with
  | nil => intro d _ _; simp
  | cons a as ih =>
    intro d hfresh hnodup
    rw [List.foldl_cons]
    rw [dictInsert_fresh d a.1 a.2 (fun q hq => hfresh a (List.mem_cons_self a as) q hq)]
    simp only [List.map_cons, List.nodup_cons] at hnodup
    rw [ih (d ++ [(a.1, a.2)]) ?_ hnodup.2]
    · simp
    · intro a' ha' q hq
      rcases List.mem_append.mp hq with hq | hq
      · exact hfresh a' (List.mem_cons_of_mem a ha') q hq
      · simp only [List.mem_singleton] at hq
        subst hq
        intro heq
        have hteq : a.1 = a'.1 := heq
        exact hnodup.1 (hteq ▸ List.mem_map_of_mem Prod.fst ha')

/-- **C9**: for every inline-format (simple) tool element whose parameter
names do not collide, the produced kwargs are the attributes followed by
one entry per child element whose value is `pyStripText` of the child's
*leading text only* — the child's own nested elements do not occur in the
result (any markup nested inside the parameter is dropped), a parameter
element with no text yields `""`, and a parameter with text yields the
stripped text. -/
theorem c9_simple_format_parameter_values (e : XMLElement)
    (hnotinv : (pyLower e.tag == "invoke") = false)
    (hnotfc : (pyLower e.tag == "function_calls") = false)
    (hnott : (pyLower e.tag == "tools") = false)
    (hnotdr : (pyLower e.tag == "dummy_root") = false)
    (htag : (e.tag == "") = false)
    (hdisj : ∀ c ∈ e.children, ∀ a ∈ e.attrib, a.1 ≠ c.tag)
    (hattr : (e.attrib.map Prod.fst).Nodup)
    (hchild : (e.children.map XMLElement.tag).Nodup) :
    XMLToolParser.parse [e] =
      [{ tool_name := e.tag,
         tool_kwargs :=
           e.attrib ++ e.children.map (fun c => (c.tag, pyStripText c.text)) }]
    ∧ pyStripText none = ""
    ∧ (∀ t, t ≠ "" → pyStripText (some t) = pyStrip t) := by
  refine ⟨?_, rfl, fun t ht => by simp [pyStripText, ht]⟩
  have hflat : flattenToolElements [e] = [e] := by
    rw [flattenToolElements]
    rw [hnotfc, hnott, hnotdr]
    simp [flattenToolElements]
  have hattrs : e.attrib.foldl (fun acc p => dictInsert acc p.1 p.2) [] = e.attrib := by
    simpa using foldl_attrib_kwargs e.attrib [] (by simp) hattr
  have hparse : parseToolElement e =
      some { tool_name := e.tag,
             tool_kwargs :=
               e.attrib ++ e.children.map (fun c => (c.tag, pyStripText c.text)) } := by
    unfold parseToolElement
    rw [if_neg (by simp [hnotinv])]
    simp only [hattrs]
    rw [foldl_children_kwargs e.children e.attrib hdisj hchild]
    rw [if_neg (by simp_all)]
  simp [XMLToolParser.parse, hflat, hparse]

/-- Witness for C9: the element tree of the mixed-content test input
`<complex_param_tool><param_name>text <nested_tag>stuff</nested_tag> more
text</param_name></complex_param_tool>` (the parameter's leading text is
`"text "`, its nested markup is a `nested_tag` child). -/
def c9Elem : XMLElement :=
  ⟨"complex_param_tool", [], none,
    [⟨"param_name", [], some "text ", [⟨"nested_tag", [], some "stuff", []⟩]⟩]⟩

theorem c9_simple_format_parameter_values_witness :
    XMLToolParser.parse [c9Elem] =
      [{ tool_name := "complex_param_tool",
         tool_kwargs := [("param_name", "text")] }]
    ∧ pyStripText none = "" := by
  have h := c9_simple_format_parameter_values c9Elem (by decide) (by decide)
    (by decide) (by decide) (by decide) (by simp [c9Elem]) (by simp [c9Elem])
    (by simp [c9Elem])
  refine ⟨?_, h.2.1⟩
  rw [h.1]
  decide

/-! ## Claims C5 and C10 — ephemeral turn-message effects on the table -/

/-- Contents on which `json.loads` succeeds with an image-context object. -/
def isImageCtxContent : MsgContent → Bool
  | .imageCtx _ _ _ => true
  | _ => false

theorem filter_filter_comm (l : List Message) (p q : Message → Bool) :
    (l.filter p).filter q = (l.filter q).filter p := by
  induction l with
  | nil => rfl
  | cons x l ih => by_cases hp : p x <;> by_cases hq : q x <;> simp [hp, hq, ih]

theorem filter_eq_of_imp (l : List Message) (p q : Message → Bool)
    (h : ∀ x ∈ l, p x = true → q x = true) :
    (l.filter p).filter q = l.filter p := by
  induction l with
  | nil => rfl
  | cons x l ih =>
    have ih' := ih (fun y hy => h y (List.mem_cons_of_mem x hy))
    by_cases hp : p x
    · have hq := h x (List.mem_cons_self x l) hp
      simp [hp, hq, ih']
    · simp [hp, ih']

theorem mem_of_getLast?_eq {α : Type} {l : List α} {a : α}
    (h : l.getLast? = some a) : a ∈ l := by
  obtain ⟨hne, heq⟩ := List.mem_getLast?_eq_getLast (show a ∈ l.getLast? from h)
  rw [heq]
  exact List.getLast_mem hne

theorem blocks_isEmpty_append (a b : List ContentBlock) :
    (a ++ b).isEmpty = (a.isEmpty && b.isEmpty) := by
  cases a <;> simp [List.isEmpty]

theorem filter_eq_nil_of_none (l : List Message) (p : Message → Bool)
    (h : ∀ x ∈ l, p x = false) : l.filter p = [] := by
  induction l with
  | nil => rfl
  | cons x l ih =>
    have := h x (List.mem_cons_self x l)
    simp [this, ih (fun y hy => h y (List.mem_cons_of_mem x hy))]

/-- **C10**: when the newest `image_context` message exists, (a) if its
content decodes as JSON the driver deletes it during the iteration even
when `base64`/`mime_type` are missing so that nothing from it entered the
turn message; (b) the message survives the step only when its content fails
to decode as JSON. -/
theorem c10_image_context_delete_on_parse (store : List Message) (m : Message)
    (hm : latestOfType store .image_context = some m) :
    (∀ b mt fp, m.content = .imageCtx b mt fp → (optTruthy b && optTruthy mt) = false →
      (ephemeralStep store).2 = store.filter (fun x => !(x.message_id == m.message_id))
      ∧ (ephemeralStep store).1 =
          (let bs :=
            match latestOfType store .browser_state with
            | none => []
            | some bm => browserStateBlocks bm.content
           if bs.isEmpty then none else some ⟨bs⟩))
    ∧ (isImageCtxContent m.content = false → (ephemeralStep store).2 = store) := by
  constructor
  · intro b mt fp hc hfalsy
    have hblocks : imageCtxBlocks b mt fp = [] := by
      simp [imageCtxBlocks, hfalsy]
    constructor
    · simp only [ephemeralStep, hm, hc, hblocks]
    · simp only [ephemeralStep, hm, hc, hblocks, List.append_nil]
  · intro hnotimg
    cases hcontent : m.content with
    | imageCtx b mt fp => rw [hcontent] at hnotimg; simp [isImageCtxContent] at hnotimg
    | invalidJson => simp only [ephemeralStep, hm, hcontent]
    | browserContent e sb su => simp only [ephemeralStep, hm, hcontent]
    | plain s => simp only [ephemeralStep, hm, hcontent]

/-- Witness for C10: a two-message store whose image context decodes but has
no `base64`, plus one that fails to decode. -/
def c10StoreA : List Message :=
  [⟨1, .browser_state, .browserContent [("url", "a")] none none⟩,
   ⟨2, .image_context, .imageCtx none (some "image/png") (some "x.png")⟩]

def c10StoreB : List Message :=
  [⟨1, .browser_state, .browserContent [("url", "a")] none none⟩,
   ⟨2, .image_context, .invalidJson⟩]

theorem c10_image_context_delete_on_parse_witness :
    (ephemeralStep c10StoreA).2 =
      [⟨1, .browser_state, .browserContent [("url", "a")] none none⟩]
    ∧ (ephemeralStep c10StoreB).2 = c10StoreB := by
  have hA := c10_image_context_delete_on_parse c10StoreA
    ⟨2, .image_context, .imageCtx none (some "image/png") (some "x.png")⟩ (by decide)
  have hB := c10_image_context_delete_on_parse c10StoreB
    ⟨2, .image_context, .invalidJson⟩ (by decide)
  constructor
  · have := (hA.1 none (some "image/png") (some "x.png") rfl (by decide)).1
    rw [this]
    decide
  · exact hB.2 (by decide)

/-- **C5**: after an iteration whose turn message included the newest
`image_context` (its content decoded with truthy `base64` and `mime_type`)
together with the newest `browser_state`, the image-context record is gone
from the table while the browser-state record survives; on the next
iteration — with any interleaving messages that are neither `browser_state`
nor `image_context` — the same browser-state blocks are included again and
no image-context blocks are. -/
theorem c5_one_shot_image_context (store extra : List Message) (m bmsg : Message)
    (b mt : String) (fp : Option String)
    (himg : store.filter (fun x => x.type == .image_context) = [m])
    (hc : m.content = .imageCtx (some b) (some mt) fp)
    (hb : b ≠ "") (hmt : mt ≠ "")
    (hbs : latestOfType store .browser_state = some bmsg)
    (hinc : (browserStateBlocks bmsg.content).isEmpty = false)
    (hids : (store.map Message.message_id).Nodup)
    (hextra : ∀ x ∈ extra, x.type ≠ .browser_state ∧ x.type ≠ .image_context) :
    (ephemeralStep store).1 =
      some ⟨browserStateBlocks bmsg.content ++ imageCtxBlocks (some b) (some mt) fp⟩
    ∧ (∀ x ∈ (ephemeralStep store).2, x.message_id ≠ m.message_id)
    ∧ bmsg ∈ (ephemeralStep store).2
    ∧ ephemeralStep ((ephemeralStep store).2 ++ extra) =
        (some ⟨browserStateBlocks bmsg.content⟩, (ephemeralStep store).2 ++ extra) := by
  have hm : latestOfType store .image_context = some m := by
    unfold latestOfType
    rw [himg]
    rfl
  have hmmem : m ∈ store := by
    have : m ∈ store.filter (fun x => x.type == .image_context) := by
      rw [himg]; exact List.mem_singleton.mpr rfl
    exact (List.mem_filter.mp this).1
  have hmtype : m.type = .image_context := by
    have : m ∈ store.filter (fun x => x.type == .image_context) := by
      rw [himg]; exact List.mem_singleton.mpr rfl
    simpa using (List.mem_filter.mp this).2
  have hbfil : bmsg ∈ store.filter (fun x => x.type == .browser_state) :=
    mem_of_getLast?_eq (by rw [← latestOfType]; exact hbs)
  have hbmem : bmsg ∈ store := (List.mem_filter.mp hbfil).1
  have hbtype : bmsg.type = .browser_state := by
    simpa using (List.mem_filter.mp hbfil).2
  have hinj := List.inj_on_of_nodup_map hids
  -- every browser_state row keeps its place after the deletion
  have hkeep : ∀ x ∈ store, (x.type == MsgType.browser_state) = true →
      (!(x.message_id == m.message_id)) = true := by
    intro x hx htype
    simp only [Bool.not_eq_true', beq_eq_false_iff_ne, ne_eq]
    intro hideq
    have : x = m := hinj hx hmmem hideq
    rw [this] at htype
    rw [hmtype] at htype
    simp at htype
  have hstep : ephemeralStep store =
      (some ⟨browserStateBlocks bmsg.content ++ imageCtxBlocks (some b) (some mt) fp⟩,
       store.filter (fun x => !(x.message_id == m.message_id))) := by
    have hne : (browserStateBlocks bmsg.content
        ++ imageCtxBlocks (some b) (some mt) fp).isEmpty = false := by
      rw [blocks_isEmpty_append, hinc]
      rfl
    simp only [ephemeralStep, hm, hc, hbs, hne]
    simp
  have hfilter_bs :
      (store.filter (fun x => !(x.message_id == m.message_id))).filter
          (fun x => x.type == .browser_state)
        = store.filter (fun x => x.type == .browser_state) := by
    rw [filter_filter_comm]
    exact filter_eq_of_imp store _ _ hkeep
  have hfilter_img :
      (store.filter (fun x => !(x.message_id == m.message_id))).filter
          (fun x => x.type == .image_context) = [] := by
    rw [filter_filter_comm, himg]
    simp
  refine ⟨by rw [hstep], ?_, ?_, ?_⟩
  · intro x hx
    rw [hstep] at hx
    have hpx := (List.mem_filter.mp hx).2
    simp only [Bool.not_eq_true', beq_eq_false_iff_ne, ne_eq] at hpx
    exact hpx
  · rw [hstep]
    refine List.mem_filter.mpr ⟨hbmem, ?_⟩
    exact hkeep bmsg hbmem (by simp [hbtype])
  · rw [hstep]
    have hextra_bs : extra.filter (fun x => x.type == .browser_state) = [] :=
      filter_eq_nil_of_none extra _ (fun x hx => by
        simp only [beq_eq_false_iff_ne, ne_eq]; exact (hextra x hx).1)
    have hextra_img : extra.filter (fun x => x.type == .image_context) = [] :=
      filter_eq_nil_of_none extra _ (fun x hx => by
        simp only [beq_eq_false_iff_ne, ne_eq]; exact (hextra x hx).2)
    have hbs2 : latestOfType
        (store.filter (fun x => !(x.message_id == m.message_id)) ++ extra)
        .browser_state = some bmsg := by
      unfold latestOfType
      rw [List.filter_append, hextra_bs, List.append_nil, hfilter_bs]
      rw [← latestOfType]
      exact hbs
    have himg2 : latestOfType
        (store.filter (fun x => !(x.message_id == m.message_id)) ++ extra)
        .image_context = none := by
      unfold latestOfType
      rw [List.filter_append, hextra_img, List.append_nil, hfilter_img]
      rfl
    simp only [ephemeralStep, hbs2, himg2, List.append_nil, hinc]
    simp

/-- Witness for C5: a store holding one browser-state row and one
image-context row with usable fields, and one tool-result row appended
before the next iteration. -/
def c5Store : List Message :=
  [⟨1, .browser_state, .browserContent [("url", "a")] none (some "http://shot")⟩,
   ⟨2, .image_context, .imageCtx (some "QUJD") (some "image/png") (some "x.png")⟩]

def c5Extra : List Message := [⟨3, .tool, .plain "ok"⟩]

theorem c5_one_shot_image_context_witness :
    (ephemeralStep c5Store).1 =
      some ⟨browserStateBlocks (.browserContent [("url", "a")] none (some "http://shot"))
        ++ imageCtxBlocks (some "QUJD") (some "image/png") (some "x.png")⟩
    ∧ (⟨1, .browser_state, .browserContent [("url", "a")] none (some "http://shot")⟩ : Message)
        ∈ (ephemeralStep c5Store).2
    ∧ ephemeralStep ((ephemeralStep c5Store).2 ++ c5Extra) =
        (some ⟨browserStateBlocks (.browserContent [("url", "a")] none (some "http://shot"))⟩,
         (ephemeralStep c5Store).2 ++ c5Extra) := by
  have h := c5_one_shot_image_context c5Store c5Extra
    ⟨2, .image_context, .imageCtx (some "QUJD") (some "image/png") (some "x.png")⟩
    ⟨1, .browser_state, .browserContent [("url", "a")] none (some "http://shot")⟩
    "QUJD" "image/png" (some "x.png")
    (by decide) rfl (by decide) (by decide) (by decide) (by decide) (by decide)
    (by decide)
  exact ⟨h.1, h.2.2.1, h.2.2.2⟩

/-! ## Claim C7 -/

/-- **C7**: the Docker client is initialized lazily — the module state
starts with no client and no attempts; a cached client is reused by every
operation without touching the cache; when the cache is empty and the
initialization attempt fails, the running operation returns its
unavailable result after exactly one attempt (no retry within the call)
and the cache stays empty, so the next top-level operation re-attempts;
when the attempt succeeds the client is cached. -/
theorem c7_lazy_client_contract (w : DockerWorld) (s : HandlerState) (op : DockerOp) :
    (∀ c, s.client = some c → (runDockerOp w s op).2 = s)
    ∧ (s.client = none → w.initOutcome s.attempts = .bothFail →
        (runDockerOp w s op).1 = unavailableResult op
        ∧ (runDockerOp w s op).2 = ⟨none, s.attempts + 1⟩)
    ∧ (s.client = none → w.initOutcome s.attempts ≠ .bothFail →
        (runDockerOp w s op).2.client = some s.attempts
        ∧ (runDockerOp w s op).2.attempts = s.attempts + 1)
    ∧ initialHandlerState.client = none ∧ initialHandlerState.attempts = 0 := by
  refine ⟨?_, ?_, ?_, rfl, rfl⟩
  · intro c hc
    cases op <;>
      simp only [runDockerOp, start_sandbox_container, stop_and_remove_sandbox_container,
        get_sandbox_container_status, execute_command_in_container,
        list_files_in_container, getOrInitializeClient, hc] <;>
      (repeat' split) <;> rfl
  · intro hc hfail
    cases op <;>
      simp only [runDockerOp, start_sandbox_container, stop_and_remove_sandbox_container,
        get_sandbox_container_status, execute_command_in_container,
        list_files_in_container, getOrInitializeClient, hc, hfail] <;>
      trivial
  · intro hc hne
    cases hw : w.initOutcome s.attempts with
    | bothFail => exact absurd hw hne
    | unixOk =>
      cases op <;>
        simp only [runDockerOp, start_sandbox_container, stop_and_remove_sandbox_container,
          get_sandbox_container_status, execute_command_in_container,
          list_files_in_container, getOrInitializeClient, hc, hw] <;>
        (repeat' split) <;> exact ⟨rfl, rfl⟩
    | unixFailEnvOk =>
      cases op <;>
        simp only [runDockerOp, start_sandbox_container, stop_and_remove_sandbox_container,
          get_sandbox_container_status, execute_command_in_container,
          list_files_in_container, getOrInitializeClient, hc, hw] <;>
        (repeat' split) <;> exact ⟨rfl, rfl⟩

/-- Witness world for C7: every initialization attempt fails. -/
def c7FailWorld : DockerWorld :=
  { initOutcome := fun _ => .bothFail,
    runContainer := fun _ _ => .apiError "boom",
    statusOf := fun _ _ => .notFound,
    stopRemove := fun _ _ => .okStop,
    execRun := fun _ _ _ _ => .ok 0 none none }

theorem c7_lazy_client_contract_witness :
    (runDockerOp c7FailWorld initialHandlerState (.execOp "cid" "ls /tmp" "/workspace")).1
      = .execRes (none, some "Docker client not available", some (-1))
    ∧ (runDockerOp c7FailWorld initialHandlerState
        (.execOp "cid" "ls /tmp" "/workspace")).2 = ⟨none, 1⟩ := by
  have h := (c7_lazy_client_contract c7FailWorld initialHandlerState
    (.execOp "cid" "ls /tmp" "/workspace")).2.1 rfl rfl
  exact ⟨h.1, h.2⟩

/-! ## Claim C8 -/

def c8World : DockerWorld :=
  { initOutcome := fun _ => .bothFail,
    runContainer := fun _ _ => .apiError "boom",
    statusOf := fun _ _ => .notFound,
    stopRemove := fun _ _ => .okStop,
    execRun := fun _ _ _ _ => .notFound }

def c8Env : SandboxEnv := ⟨false, fun _ => .otherErr⟩

/-- **C8 is false as stated**: a *present* descriptor whose `id` key is
missing (`\x7b'type': 'local_docker'\x7d`) makes `delete_sandbox` clear the
descriptor from the project record and return `False` although no backend
deletion was attempted, let alone reported success — contradicting
"clears the descriptor … exactly when the backend deletion reports
success, returning that success flag". -/
theorem c8_counterexample :
    (delete_sandbox c8World c8Env initialHandlerState
        (some ⟨some "local_docker", none⟩)).cleared = true
    ∧ (delete_sandbox c8World c8Env initialHandlerState
        (some ⟨some "local_docker", none⟩)).backendReported = none
    ∧ (delete_sandbox c8World c8Env initialHandlerState
        (some ⟨some "local_docker", none⟩)).returned = false := by
  refine ⟨rfl, rfl, rfl⟩

/-- **C8 (amended)**: `delete_sandbox` returns `True` when the project
record has no sandbox descriptor (absent = success) without touching the
record; a present descriptor missing its `id` or `type` is cleared and
`False` is returned with no backend deletion attempted; for a well-formed
`local_docker` (resp. configured `daytona`) descriptor it stops and deletes
the sandbox, clears the descriptor exactly when the backend deletion
reports success, and returns that success flag. -/
theorem c8_delete_sandbox_contract (w : DockerWorld) (env : SandboxEnv)
    (s : HandlerState) (info : SandboxInfo) (cid : String) :
    ((delete_sandbox w env s none).returned = true
      ∧ (delete_sandbox w env s none).cleared = false
      ∧ (delete_sandbox w env s none).backendReported = none)
    ∧ ((optTruthy info.sandboxId = false ∨ optTruthy info.sandboxType = false) →
        (delete_sandbox w env s (some info)).returned = false
        ∧ (delete_sandbox w env s (some info)).cleared = true
        ∧ (delete_sandbox w env s (some info)).backendReported = none)
    ∧ (info.sandboxType = some "local_docker" → info.sandboxId = some cid → cid ≠ "" →
        (delete_sandbox w env s (some info)).returned
            = (stop_and_remove_sandbox_container w s cid false).1.getD false
        ∧ (delete_sandbox w env s (some info)).cleared
            = (stop_and_remove_sandbox_container w s cid false).1.getD false
        ∧ (delete_sandbox w env s (some info)).backendReported
            = some ((stop_and_remove_sandbox_container w s cid false).1.getD false))
    ∧ (info.sandboxType = some "daytona" → info.sandboxId = some cid → cid ≠ "" →
        env.daytonaConfigured = true →
        (delete_sandbox w env s (some info)).returned
            = (delete_sandbox w env s (some info)).cleared
        ∧ (delete_sandbox w env s (some info)).backendReported
            = some (delete_sandbox w env s (some info)).returned) := by
  refine ⟨⟨rfl, rfl, rfl⟩, ?_, ?_, ?_⟩
  · intro h
    have hcond : (!optTruthy info.sandboxId || !optTruthy info.sandboxType) = true := by
      rcases h with h | h <;> simp [h]
    simp only [delete_sandbox, hcond]
    exact ⟨rfl, rfl, rfl⟩
  · intro ht hid hcid
    have htr : optTruthy (some cid) = true := by simp [optTruthy, hcid]
    simp only [delete_sandbox, ht, hid, htr]
    simp only [optTruthy, Option.getD_some]
    norm_num
    exact ⟨rfl, rfl, rfl⟩
  · intro ht hid hcid hconf
    have htr : optTruthy (some cid) = true := by simp [optTruthy, hcid]
    have hcond : (!optTruthy (some cid) || !optTruthy (some "daytona")) = false := by
      rw [htr]; rfl
    have h1 : (("daytona" : String) == "local_docker") = false := by decide
    have h2 : (("daytona" : String) == "daytona") = true := by decide
    have hdel : delete_sandbox w env s (some info) =
        ⟨(match env.daytonaDelete cid with
           | .okDelete => true | .notFoundErr => true | .otherErr => false),
         (match env.daytonaDelete cid with
           | .okDelete => true | .notFoundErr => true | .otherErr => false),
         some (match env.daytonaDelete cid with
           | .okDelete => true | .notFoundErr => true | .otherErr => false), s⟩ := by
      simp only [delete_sandbox, ht, hid, hcond, Option.getD_some, h1, h2, hconf,
        Bool.not_true, Bool.false_eq_true, if_false, if_true]
    rw [hdel]
    exact ⟨rfl, rfl⟩

def c8wWorld : DockerWorld :=
  { initOutcome := fun _ => .unixOk,
    runContainer := fun _ _ => .apiError "boom",
    statusOf := fun _ _ => .notFound,
    stopRemove := fun _ _ => .okStop,
    execRun := fun _ _ _ _ => .notFound }

def c8wEnv : SandboxEnv := ⟨true, fun _ => .okDelete⟩

theorem c8_delete_sandbox_contract_witness :
    (delete_sandbox c8wWorld c8wEnv initialHandlerState none).returned = true
    ∧ (delete_sandbox c8wWorld c8wEnv initialHandlerState
        (some ⟨some "local_docker", some "abc"⟩)).returned = true
    ∧ (delete_sandbox c8wWorld c8wEnv initialHandlerState
        (some ⟨some "local_docker", some "abc"⟩)).cleared = true := by
  have h := c8_delete_sandbox_contract c8wWorld c8wEnv initialHandlerState
    ⟨some "local_docker", some "abc"⟩ "abc"
  have h3 := h.2.2.1 rfl rfl (by decide)
  refine ⟨h.1.1, ?_, ?_⟩
  · rw [h3.1]; decide
  · rw [h3.2.1]; decide

end Mitosis
